import Mathlib

/-!
A shallow embedding of the PipeRelay webhook delivery service core
(signing, event-type matching, retry policy, worker state transitions,
fan-out, ingest size gating, the due-delivery queue query, and endpoint
creation), with theorems checking the specification's claims against it.

Go strings are byte strings; we model them as `List Char` (all the
strings involved are ASCII) and raw byte payloads as `List Nat`.
Wall-clock reads (`time.Now()`) become explicit parameters.
-/

namespace PipeRelay

/-- Model of a Go string (a byte/char sequence). -/
abbrev GoStr := List Char

/-- Convenience: the char list of a Lean string literal. -/
def toChars (s : String) : GoStr := s.data

/-! ### Event-type matching (`matchesEventType`, internal/storage/sqlite.go)

```go
func matchesEventType(subscribed []string, eventType string) bool {
    if len(subscribed) == 0 { return true }
    for _, sub := range subscribed {
        if sub == eventType { return true }
        if strings.HasSuffix(sub, ".*") {
            prefix := strings.TrimSuffix(sub, ".*")
            if strings.HasPrefix(eventType, prefix+".") { return true }
        }
        if sub == "*" { return true }
    }
    return false
}
```
`strings.TrimSuffix(sub, ".*")` drops the final two chars when the suffix
is present, i.e. `sub.take (sub.length - 2)`.
-/

def matchesEventType (subscribed : List GoStr) (eventType : GoStr) : Bool :=
  if subscribed.length = 0 then
    true
  else
    subscribed.any fun sub =>
      sub == eventType ||
      ((toChars ".*").isSuffixOf sub &&
        (sub.take (sub.length - 2) ++ toChars ".").isPrefixOf eventType) ||
      sub == toChars "*"

/-! ### SHA-256 and HMAC-SHA256 (model of Go crypto/sha256, crypto/hmac)

Bytes are `Nat`s (< 256 for real inputs); 32-bit words are `Nat`s reduced
mod `2^32` by `w32`. FIPS 180-4 SHA-256, as computed by Go's
`crypto/sha256`, and RFC 2104 HMAC with a 64-byte block size, as computed
by Go's `crypto/hmac`.
-/

/-- Reduce to a 32-bit word. -/
def w32 (x : Nat) : Nat := x % 4294967296

/-- Right rotation of a 32-bit word (`0 < n < 32`, `x < 2^32`). -/
def rotr32 (x n : Nat) : Nat := (x >>> n) ||| w32 (x <<< (32 - n))

def bsig0 (x : Nat) : Nat := (rotr32 x 2) ^^^ (rotr32 x 13) ^^^ (rotr32 x 22)

def bsig1 (x : Nat) : Nat := (rotr32 x 6) ^^^ (rotr32 x 11) ^^^ (rotr32 x 25)

def ssig0 (x : Nat) : Nat := (rotr32 x 7) ^^^ (rotr32 x 18) ^^^ (x >>> 3)

def ssig1 (x : Nat) : Nat := (rotr32 x 17) ^^^ (rotr32 x 19) ^^^ (x >>> 10)

/-- SHA-256 `Ch(x,y,z)`; `¬x` over 32 bits is `x ^^^ (2^32 - 1)`. -/
def chf (x y z : Nat) : Nat := (x &&& y) ^^^ ((x ^^^ 4294967295) &&& z)

def majf (x y z : Nat) : Nat := (x &&& y) ^^^ (x &&& z) ^^^ (y &&& z)

/-- The 64 SHA-256 round constants. -/
def sha256K : List Nat :=
  [1116352408, 1899447441, 3049323471, 3921009573, 961987163, 1508970993,
   2453635748, 2870763221, 3624381080, 310598401, 607225278, 1426881987,
   1925078388, 2162078206, 2614888103, 3248222580, 3835390401, 4022224774,
   264347078, 604807628, 770255983, 1249150122, 1555081692, 1996064986,
   2554220882, 2821834349, 2952996808, 3210313671, 3336571891, 3584528711,
   113926993, 338241895, 666307205, 773529912, 1294757372, 1396182291,
   1695183700, 1986661051, 2177026350, 2456956037, 2730485921, 2820302411,
   3259730800, 3345764771, 3516065817, 3600352804, 4094571909, 275423344,
   430227734, 506948616, 659060556, 883997877, 958139571, 1322822218,
   1537002063, 1747873779, 1955562222, 2024104815, 2227730452, 2361852424,
   2428436474, 2756734187, 3204031479, 3329325298]

/-- The SHA-256 working registers (a..h). -/
structure Regs where
  a : Nat
  b : Nat
  c : Nat
  d : Nat
  e : Nat
  f : Nat
  g : Nat
  h : Nat
deriving DecidableEq

/-- The SHA-256 initial hash value. -/
def sha256H0 : Regs :=
  ⟨1779033703, 3144134277, 1013904242, 2773480762,
   1359893119, 2600822924, 528734635, 1541459225⟩

/-- Big-endian 8-byte encoding (for the length field of the padding). -/
def be64 (n : Nat) : List Nat :=
  [(n >>> 56) % 256, (n >>> 48) % 256, (n >>> 40) % 256, (n >>> 32) % 256,
   (n >>> 24) % 256, (n >>> 16) % 256, (n >>> 8) % 256, n % 256]

/-- Big-endian 4-byte encoding of a 32-bit word. -/
def be32 (n : Nat) : List Nat :=
  [(n >>> 24) % 256, (n >>> 16) % 256, (n >>> 8) % 256, n % 256]

/-- SHA-256 padding: a `0x80` byte, zeros to 56 mod 64, then the bit length. -/
def sha256pad (msg : List Nat) : List Nat :=
  msg ++ 128 :: List.replicate ((119 - msg.length % 64) % 64) 0 ++ be64 (8 * msg.length)

/-- Group bytes into big-endian 32-bit words. -/
def toWords : List Nat → List Nat
  | a :: b :: c :: d :: rest => (((a * 256 + b) * 256 + c) * 256 + d) :: toWords rest
  | _ => []

/-- Expand a 16-word block to the 64-word message schedule. -/
def sched (block : List Nat) : List Nat :=
  (List.range 48).foldl
    (fun acc i =>
      acc ++ [w32 (ssig1 (acc.getD (i + 14) 0) + acc.getD (i + 9) 0 +
                   ssig0 (acc.getD (i + 1) 0) + acc.getD i 0)])
    block

/-- One SHA-256 compression round. -/
def roundStep (kt wt : Nat) (r : Regs) : Regs :=
  let t1 := w32 (r.h + bsig1 r.e + chf r.e r.f r.g + kt + wt)
  let t2 := w32 (bsig0 r.a + majf r.a r.b r.c)
  ⟨w32 (t1 + t2), r.a, r.b, r.c, w32 (r.d + t1), r.e, r.f, r.g⟩

/-- Compress one 16-word block into the running hash state. -/
def compress (hs : Regs) (block : List Nat) : Regs :=
  let w := sched block
  let r := (List.range 64).foldl
    (fun r i => roundStep (sha256K.getD i 0) (w.getD i 0) r) hs
  ⟨w32 (hs.a + r.a), w32 (hs.b + r.b), w32 (hs.c + r.c), w32 (hs.d + r.d),
   w32 (hs.e + r.e), w32 (hs.f + r.f), w32 (hs.g + r.g), w32 (hs.h + r.h)⟩

/-- Fold the compression function over all 16-word blocks. -/
def blocksProcess (hs : Regs) : List Nat → Regs
  | w0 :: w1 :: w2 :: w3 :: w4 :: w5 :: w6 :: w7 ::
    w8 :: w9 :: w10 :: w11 :: w12 :: w13 :: w14 :: w15 :: rest =>
      blocksProcess
        (compress hs [w0, w1, w2, w3, w4, w5, w6, w7,
                      w8, w9, w10, w11, w12, w13, w14, w15]) rest
  | _ => hs

/-- SHA-256 of a byte list, as a 32-byte list. -/
def sha256 (msg : List Nat) : List Nat :=
  let r := blocksProcess sha256H0 (toWords (sha256pad msg))
  be32 r.a ++ be32 r.b ++ be32 r.c ++ be32 r.d ++
  be32 r.e ++ be32 r.f ++ be32 r.g ++ be32 r.h

/-- HMAC-SHA256 with a 64-byte block size (Go `crypto/hmac` over sha256). -/
def hmacSha256 (key msg : List Nat) : List Nat :=
  let k0 := if 64 < key.length then sha256 key else key
  let kp := k0 ++ List.replicate (64 - k0.length) 0
  sha256 ((kp.map fun b => b ^^^ 92) ++ sha256 ((kp.map fun b => b ^^^ 54) ++ msg))

/-! ### Signer (`Sign` / `Verify`, internal/signing)

```go
func Sign(secret string, payload []byte) (signature string, timestamp int64) {
    timestamp = time.Now().Unix()
    toSign := fmt.Sprintf("%d.%s", timestamp, string(payload))
    mac := hmac.New(sha256.New, []byte(secret))
    mac.Write([]byte(toSign))
    sig := hex.EncodeToString(mac.Sum(nil))
    return fmt.Sprintf("v1=%s", sig), timestamp
}

func Verify(secret string, payload []byte, timestamp int64, signature string) bool {
    toSign := fmt.Sprintf("%d.%s", timestamp, string(payload))
    mac := hmac.New(sha256.New, []byte(secret))
    mac.Write([]byte(toSign))
    expected := fmt.Sprintf("v1=%s", hex.EncodeToString(mac.Sum(nil)))
    return hmac.Equal([]byte(expected), []byte(signature))
}
```

Go strings are byte slices, so secrets, payloads and signatures are all
`List Nat` here. The wall-clock read `time.Now().Unix()` becomes the
explicit parameter `ts : Nat`.
-/

/-- Lowercase hex digit of a nibble, as a byte (`hex.EncodeToString`). -/
def hexDigit (n : Nat) : Nat := if n < 10 then 48 + n else 87 + n

/-- Lowercase hex encoding of a byte list (`hex.EncodeToString`). -/
def hexEncode (bs : List Nat) : List Nat :=
  (bs.map fun b => [hexDigit (b / 16), hexDigit (b % 16)]).flatten

/-- The bytes of the decimal representation of a natural number
(`fmt.Sprintf("%d", ts)`; no leading zeros). -/
def decimalBytes (n : Nat) : List Nat := (Nat.toDigits 10 n).map Char.toNat

/-- The signed content `"<timestamp>.<payload>"`; 46 is the ASCII dot. -/
def signedContent (ts : Nat) (payload : List Nat) : List Nat :=
  decimalBytes ts ++ 46 :: payload

/-- The bytes of the string `"v1="`. -/
def v1Tag : List Nat := [118, 49, 61]

/-- `signing.Sign` at timestamp `ts`: the returned signature string. -/
def Sign (secret payload : List Nat) (ts : Nat) : List Nat :=
  v1Tag ++ hexEncode (hmacSha256 secret (signedContent ts payload))

/-- `signing.Verify`: recompute and compare (`hmac.Equal` is byte
equality in constant time). -/
def Verify (secret payload : List Nat) (ts : Nat) (signature : List Nat) : Bool :=
  (v1Tag ++ hexEncode (hmacSha256 secret (signedContent ts payload))) == signature

/-! ### Retry policy and worker state transition
(`NextRetryTime`, `IsSuccess`, `Worker.Process` — internal/delivery)

Durations and instants are `Nat`s (Go durations are int64 nanoseconds and
the times here are all after the epoch); `time.Now()` is the explicit
parameter `now`. Attempt counts are `Int`, as Go's `int`.
-/

inductive DeliveryStatus
  | pending
  | retrying
  | success
  | failed
deriving DecidableEq

/-- `models.Delivery` (the fields the core logic reads or writes;
`updated_at` is omitted — nothing in the claims depends on it). -/
structure Delivery where
  id : Nat
  messageId : Nat
  endpointId : Nat
  status : DeliveryStatus
  attemptCount : Int
  nextRetryAt : Option Nat
  createdAt : Nat
deriving DecidableEq

/--
```go
func NextRetryTime(attemptCount int, schedule []time.Duration) *time.Time {
    idx := attemptCount - 1
    if idx < 0 || idx >= len(schedule) { return nil } // no more retries
    t := time.Now().UTC().Add(schedule[idx])
    return &t
}
```
-/
def NextRetryTime (now : Nat) (attemptCount : Int) (schedule : List Nat) : Option Nat :=
  let idx := attemptCount - 1
  if idx < 0 || (schedule.length : Int) ≤ idx then none
  else some (now + schedule.getD idx.toNat 0)

/-- `func IsSuccess(statusCode int) bool { return statusCode >= 200 && statusCode < 300 }` -/
def IsSuccess (statusCode : Int) : Bool :=
  200 ≤ statusCode && statusCode < 300

/-- The part of a `SendResult` that the worker's classification reads. -/
structure SendOutcome where
  statusCode : Int
  error : GoStr
deriving DecidableEq

/-- The worker's classification test, `result.Error == "" && IsSuccess(result.StatusCode)`. -/
def attemptSuccess (r : SendOutcome) : Bool :=
  r.error == [] && IsSuccess r.statusCode

/-- The delivery-state transition of `Worker.Process` after the send (the
branch chain at the end of `Process`): the delivery row passed to
`UpdateDelivery`, or `none` when no update is written because the retry
branch computed a nil `NextRetryAt` and the worker dereferences that nil
pointer in its `Time("next_retry", *d.NextRetryAt)` log call (a panic). -/
def processStep (maxAttempts : Int) (schedule : List Nat) (now : Nat)
    (d : Delivery) (r : SendOutcome) : Option Delivery :=
  let ac := d.attemptCount + 1
  if attemptSuccess r then
    some { d with status := .success, attemptCount := ac, nextRetryAt := none }
  else if maxAttempts ≤ ac then
    some { d with status := .failed, attemptCount := ac, nextRetryAt := none }
  else
    match NextRetryTime now ac schedule with
    | some t => some { d with status := .retrying, attemptCount := ac, nextRetryAt := some t }
    | none => none

/-- A delivery as fan-out creates it: `pending`, zero-value attempt count
and nil next-retry (handlers_messages.go, the `models.Delivery{...}` literal). -/
def initialDelivery (id msgId epId createdAt : Nat) : Delivery :=
  { id := id, messageId := msgId, endpointId := epId, status := .pending,
    attemptCount := 0, nextRetryAt := none, createdAt := createdAt }

/-- Retry configuration (`delivery.workers` config: `max_attempts`,
`retry_schedule`). -/
structure RetryConfig where
  maxAttempts : Int
  schedule : List Nat

/-- One observable transition of a single delivery row:
either the worker processes it (it is handed out by
`GetPendingDeliveries`, hence in status pending or retrying, and the
transition it persists is `processStep`; runs on which the worker
abandons the row unchanged — missing message/endpoint, inactive endpoint,
failed update, or the nil-next-retry panic — do not move the row), or the
manual-retry handler (`MessageHandler.Retry`) moves a failed row to
`retrying` with `next_retry_at = now`, preserving the attempt count. -/
inductive Step (cfg : RetryConfig) : Delivery → Delivery → Prop
  | processed (d : Delivery) (r : SendOutcome) (now : Nat) (d' : Delivery)
      (hpick : d.status = .pending ∨ d.status = .retrying)
      (hstep : processStep cfg.maxAttempts cfg.schedule now d r = some d') :
      Step cfg d d'
  | manualRetry (d : Delivery) (now : Nat)
      (hfailed : d.status = .failed) :
      Step cfg d { d with status := .retrying, nextRetryAt := some now }

/-- Delivery rows reachable from a freshly fanned-out delivery. -/
inductive Reachable (cfg : RetryConfig) (d0 : Delivery) : Delivery → Prop
  | refl : Reachable cfg d0 d0
  | step {d d' : Delivery} :
      Reachable cfg d0 d → Step cfg d d' → Reachable cfg d0 d'

/-! ### Store rows and queries (internal/storage/sqlite.go)

Identifiers are opaque; we model them as `Nat`. Timestamps bound into SQL
are UTC instants, modelled as `Nat` so that SQLite's comparison agrees
with chronological order.
-/

/-- `models.Endpoint` (metadata map omitted; nothing reads it). -/
structure Endpoint where
  id : Nat
  appId : Nat
  url : GoStr
  description : GoStr
  secret : GoStr
  eventTypes : List GoStr
  rateLimit : Int
  active : Bool
  createdAt : Nat
deriving DecidableEq

/-- `models.Message`. -/
structure Message where
  id : Nat
  appId : Nat
  eventType : GoStr
  payload : GoStr
  createdAt : Nat
deriving DecidableEq

/-- `models.Attempt` (the fields the store persists; fan-out never
touches this relation). -/
structure Attempt where
  id : Nat
  deliveryId : Nat
  attemptNumber : Int
  statusCode : Int
  error : GoStr
deriving DecidableEq

/-- The persistent state the ingest path reads and writes. -/
structure Store where
  endpoints : List Endpoint
  messages : List Message
  deliveries : List Delivery
  attempts : List Attempt
deriving DecidableEq

/-- Ordering key for `ORDER BY created_at ASC`. -/
def createdLE (a b : Delivery) : Prop := a.createdAt ≤ b.createdAt

instance : DecidableRel createdLE := fun a b => Nat.decLe a.createdAt b.createdAt

instance : IsTotal Delivery createdLE := ⟨fun a b => Nat.le_total a.createdAt b.createdAt⟩

instance : IsTrans Delivery createdLE := ⟨fun _ _ _ => Nat.le_trans⟩

/-- Ordering key for the endpoints query's `ORDER BY created_at DESC`. -/
def createdGE (a b : Endpoint) : Prop := b.createdAt ≤ a.createdAt

instance : DecidableRel createdGE := fun a b => Nat.decLe b.createdAt a.createdAt

instance : IsTotal Endpoint createdGE := ⟨fun a b => Nat.le_total b.createdAt a.createdAt⟩

instance : IsTrans Endpoint createdGE := ⟨fun _ _ _ h h' => Nat.le_trans h' h⟩

/--
`GetEndpointsByEventType`: the SQL query
`SELECT ... FROM endpoints WHERE app_id = ? AND active = 1 ORDER BY created_at DESC`
followed by the in-Go `matchesEventType` filter.
-/
def GetEndpointsByEventType (appId : Nat) (eventType : GoStr)
    (endpoints : List Endpoint) : List Endpoint :=
  (List.insertionSort createdGE
      (endpoints.filter fun ep => ep.appId == appId && ep.active)).filter
    fun ep => matchesEventType ep.eventTypes eventType

/-- The `WHERE` clause of `GetPendingDeliveries`:
`status IN ('pending', 'retrying') AND (next_retry_at IS NULL OR next_retry_at <= now)`. -/
def dueFilter (now : Nat) (d : Delivery) : Bool :=
  (d.status == .pending || d.status == .retrying) &&
  (match d.nextRetryAt with
   | none => true
   | some t => decide (t ≤ now))

/--
`GetPendingDeliveries`: the due-queue scan
`... WHERE <dueFilter> ORDER BY created_at ASC LIMIT ?`.
`limit` is a Go `int` bound into `LIMIT ?`; SQLite places no upper bound
on the row count when the limit expression is negative, and `LIMIT 0`
returns nothing.
-/
def GetPendingDeliveries (now : Nat) (limit : Int) (rows : List Delivery) : List Delivery :=
  let sorted := List.insertionSort createdLE (rows.filter (dueFilter now))
  if limit < 0 then sorted else sorted.take limit.toNat

/-! ### Message ingest and fan-out (`MessageHandler.Send`, internal/api/handlers_messages.go)

Fallible store writes are modelled by oracles: `createMsgOk` is the
outcome of `CreateMessage` and `createOk k` the outcome of the `k`-th
`CreateDelivery` (the code treats any error as an abort of the handler).
`idSupply k` is the ULID drawn for the `k`-th delivery
(`models.NewID("dlv")`). The endpoints query itself is not given a
failure oracle: the claims under study only exercise delivery-write
failures.
-/

/-- The handler's observable response: `writeError(400, ...)`,
`writeError(500, ...)`, or `202 Accepted` with the delivery count. -/
inductive SendResponse
  | badRequest
  | serverError
  | accepted (deliveriesCreated : Nat)
deriving DecidableEq

/-- The delivery row fan-out inserts for one matched endpoint
(`models.Delivery{ID: NewID("dlv"), MessageID: ..., EndpointID: ...,
Status: pending, CreatedAt: now, UpdatedAt: now}`; attempt count and
next-retry keep their Go zero values `0` and `nil`). -/
def mkDelivery (idSupply : Nat → Nat) (k msgId now : Nat) (ep : Endpoint) : Delivery :=
  { id := idSupply k, messageId := msgId, endpointId := ep.id,
    status := .pending, attemptCount := 0, nextRetryAt := none, createdAt := now }

/-- The `for _, ep := range endpoints` loop of the handler: insert one
pending delivery per endpoint, aborting with a 500 on the first failing
`CreateDelivery` (already-written rows stay; there is no transaction). -/
def fanOutLoop (createOk : Nat → Bool) (idSupply : Nat → Nat) (msgId now : Nat) :
    Nat → List Endpoint → Store → Store × SendResponse
  | _, [], st => (st, .accepted 0)
  | k, ep :: rest, st =>
    if createOk k then
      match fanOutLoop createOk idSupply msgId now (k + 1) rest
          { st with deliveries := st.deliveries ++ [mkDelivery idSupply k msgId now ep] } with
      | (st', .accepted n) => (st', .accepted (n + 1))
      | (st', r) => (st', r)
    else (st, .serverError)

/-- Lines 51–92 of the handler: persist the message, query the matching
endpoints, insert the deliveries, and answer with the count. -/
def sendFanOut (createMsgOk : Bool) (createOk : Nat → Bool) (idSupply : Nat → Nat)
    (appId : Nat) (eventType payload : GoStr) (msgId now : Nat) (st : Store) :
    Store × SendResponse :=
  if createMsgOk then
    let msg : Message :=
      { id := msgId, appId := appId, eventType := eventType,
        payload := payload, createdAt := now }
    let st1 := { st with messages := st.messages ++ [msg] }
    fanOutLoop createOk idSupply msgId now 0
      (GetEndpointsByEventType appId eventType st1.endpoints) st1
  else (st, .serverError)

/-- `const maxPayloadSize = 256 * 1024`. -/
def maxPayloadSize : Nat := 256 * 1024

/-- The decoded `sendMessageRequest` (`event_type`, raw `payload` bytes). -/
structure SendRequest where
  eventType : GoStr
  payload : GoStr
deriving DecidableEq

/-- The full `Send` handler body after auth. The request body is read
through `http.MaxBytesReader(w, r.Body, maxPayloadSize)` and decoded with
`json.NewDecoder(r.Body).Decode(&req)`. `Decode` parses exactly ONE
complete JSON value and never reads the rest of the body, and
`MaxBytesReader` fails a read only once more than `maxPayloadSize` bytes
have been consumed. So the decode is modelled by an oracle on the body's
leading complete JSON value: `decoded = some (req, valueEnd)` means that
value spans the body's first `valueEnd` bytes and decodes to `req`, while
`none` means no complete value decodes (malformed or truncated body).
`Decode` then errors — a 400 with nothing persisted — exactly when the
value it must consume extends past the cap (`maxPayloadSize < valueEnd`);
the body's total length never matters, since bytes after the first value
are never read, so an over-long body with a short leading value is still
accepted. After a successful decode come the non-empty checks on
`event_type` and `payload`, then fan-out. -/
def handleSend (decoded : Option (SendRequest × Nat))
    (createMsgOk : Bool) (createOk : Nat → Bool) (idSupply : Nat → Nat)
    (appId msgId now : Nat) (st : Store) : Store × SendResponse :=
  match decoded with
  | none => (st, .badRequest)
  | some (req, valueEnd) =>
    if maxPayloadSize < valueEnd then (st, .badRequest)
    else if req.eventType.length = 0 then (st, .badRequest)
    else if req.payload.length = 0 then (st, .badRequest)
    else sendFanOut createMsgOk createOk idSupply appId req.eventType req.payload msgId now st

/-- The most compact JSON request body a client can send for a given
event type and raw JSON payload:
`\x7b"event_type":"<e>","payload":<p>\x7d`. It is one JSON object whose
`payload` member contains the payload, so the decoder's leading complete
JSON value is the whole body: decoding it must consume every one of its
`e.length + p.length + 28` bytes. -/
def clientBody (eventType payload : GoStr) : GoStr :=
  toChars "\x7b\"event_type\":\"" ++ eventType ++
  toChars "\",\"payload\":" ++ payload ++ toChars "\x7d"

/-! ### Endpoint creation (`EndpointHandler.Create`, `models.NewSecret`) -/

/-- The 62-character alphanumeric charset of `NewSecret`. -/
def secretCharset : GoStr :=
  toChars "abcdefghijklmnopqrstuvwxyzABCDEFGHIJKLMNOPQRSTUVWXYZ0123456789"

/--
```go
func NewSecret() string {
    const charset = "...62 chars..."
    b := make([]byte, 40)
    for i := range b {
        n, _ := rand.Int(rand.Reader, big.NewInt(int64(len(charset))))
        b[i] = charset[n.Int64()]
    }
    return fmt.Sprintf("whsec_%s", string(b))
}
```
`draw i` is the random draw for position `i` (uniform on `0..61`).
-/
def NewSecret (draw : Nat → Fin 62) : GoStr :=
  toChars "whsec_" ++ (List.range 40).map fun i =>
    secretCharset.get ⟨(draw i).val, Nat.lt_of_lt_of_le (draw i).isLt (by decide)⟩

/-- The decoded `createEndpointRequest`. It has exactly the fields of the
Go struct — in particular NO `secret` and NO `active` field, so a client
cannot supply either. `eventTypes` is `none` when the JSON field is
absent or null (a nil Go slice). -/
structure CreateEndpointRequest where
  url : GoStr
  description : GoStr
  eventTypes : Option (List GoStr)
  rateLimit : Int
deriving DecidableEq

/-- The endpoint constructed and persisted by `EndpointHandler.Create`
after URL validation (`Active: true`, `Secret: models.NewSecret()`, and
the nil event-type slice normalized to the empty slice). -/
def createEndpoint (req : CreateEndpointRequest) (appId newId : Nat)
    (draw : Nat → Fin 62) (now : Nat) : Endpoint :=
  { id := newId, appId := appId, url := req.url, description := req.description,
    secret := NewSecret draw,
    eventTypes := match req.eventTypes with
                  | none => []
                  | some l => l,
    rateLimit := req.rateLimit, active := true, createdAt := now }

/-! ### Auxiliary definitions used by the theorems -/

/-- One subscription rule of the amended matching spec: the catch-all
`*`, the `prefix.*` wildcard — which matches exactly the event types that
start with `prefix.` (NOT the bare `prefix` itself) — or exact equality. -/
def specRuleAmended (sub e : GoStr) : Prop :=
  sub = toChars "*" ∨
  ((toChars ".*").isSuffixOf sub = true ∧
    (sub.take (sub.length - 2) ++ toChars ".").isPrefixOf e = true) ∨
  sub = e

/-- The deliveries the fan-out loop inserts for an endpoint list,
starting at loop index `k`. -/
def fanDeliveriesFrom (idSupply : Nat → Nat) (msgId now : Nat) :
    Nat → List Endpoint → List Delivery
  | _, [] => []
  | k, ep :: rest =>
    mkDelivery idSupply k msgId now ep :: fanDeliveriesFrom idSupply msgId now (k + 1) rest

/-- Concrete retry configuration: one attempt, empty schedule. -/
def exCfg : RetryConfig := ⟨1, []⟩

/-- A freshly fanned-out delivery row. -/
def exInit : Delivery := initialDelivery 1 1 1 0

/-- `exInit` after one failed attempt under `exCfg` (terminal `failed`). -/
def exFailedOnce : Delivery :=
  { exInit with status := .failed, attemptCount := 1, nextRetryAt := none }

/-- `exFailedOnce` after a manual retry at time 5. -/
def exRetried : Delivery :=
  { exFailedOnce with status := .retrying, nextRetryAt := some 5 }

/-- `exRetried` after a second failed attempt: `failed` again, with
attempt count 2 exceeding `exCfg.maxAttempts = 1`. -/
def exFailedTwice : Delivery :=
  { exRetried with status := .failed, attemptCount := 2, nextRetryAt := none }

/-- A due pending delivery row (for the queue-query theorems). -/
def rowDue : Delivery :=
  { id := 0, messageId := 0, endpointId := 0, status := .pending,
    attemptCount := 0, nextRetryAt := none, createdAt := 0 }

/-- A store holding nothing. -/
def emptyStore : Store := { endpoints := [], messages := [], deliveries := [], attempts := [] }

/-- An active endpoint of application 1 subscribed to everything. -/
def epW : Endpoint :=
  { id := 10, appId := 1, url := toChars "https://a.example/h", description := [],
    secret := toChars "whsec_x", eventTypes := [], rateLimit := 0,
    active := true, createdAt := 4 }

/-- A second active endpoint of application 1, created later. -/
def epW2 : Endpoint :=
  { id := 20, appId := 1, url := toChars "https://b.example/h", description := [],
    secret := toChars "whsec_y", eventTypes := [], rateLimit := 0,
    active := true, createdAt := 2 }

/-- A store holding exactly `epW`. -/
def stW : Store := { endpoints := [epW], messages := [], deliveries := [], attempts := [] }

/-- A store holding `epW` and `epW2`. -/
def stW2 : Store := { endpoints := [epW, epW2], messages := [], deliveries := [], attempts := [] }

/-- A payload that, inside the minimal envelope with event type `"a"`,
fills the request body to exactly `maxPayloadSize` bytes
(`28 + 1 + 262115 = 262144`). -/
def fittingPayload : GoStr := List.replicate 262115 '1'

/-- A payload of exactly `maxPayloadSize` (262144) bytes. -/
def hugePayload : GoStr := List.replicate 262144 '1'

/-! ## Helper lemmas -/

/-- `hexDigit` is injective (the two digit ranges `48..57` and `97..` are
disjoint). -/
theorem hexDigit_inj : ∀ {m n : Nat}, hexDigit m = hexDigit n → m = n := by
  intro m n h
  unfold hexDigit at h
  split at h <;> split at h <;> omega

/-- `hexEncode` is injective. -/
theorem hexEncode_injective : ∀ (xs ys : List Nat), hexEncode xs = hexEncode ys → xs = ys := by
  intro xs
  induction xs with
  | nil =>
    intro ys h
    cases ys with
    | nil => rfl
    | cons y ys => simp [hexEncode] at h
  | cons x xs ih =>
    intro ys h
    cases ys with
    | nil => simp [hexEncode] at h
    | cons y ys =>
      simp only [hexEncode, List.map_cons, List.flatten_cons, List.cons_append,
        List.nil_append] at h
      injection h with h1 h'
      injection h' with h2 h3
      have hx : x = y := by
        have e1 := hexDigit_inj h1
        have e2 := hexDigit_inj h2
        omega
      rw [hx, ih ys h3]

/-- When every `CreateDelivery` succeeds, the fan-out loop appends
exactly one pending delivery per endpoint and reports the endpoint
count. -/
theorem fanOutLoop_all_ok (createOk : Nat → Bool) (idSupply : Nat → Nat)
    (msgId now : Nat) (hok : ∀ j, createOk j = true) :
    ∀ (eps : List Endpoint) (k : Nat) (st : Store),
      fanOutLoop createOk idSupply msgId now k eps st =
        ({ st with deliveries := st.deliveries ++ fanDeliveriesFrom idSupply msgId now k eps },
          SendResponse.accepted eps.length) := by
  intro eps
  induction eps with
  | nil => intro k st; simp [fanOutLoop, fanDeliveriesFrom]
  | cons ep rest ih =>
    intro k st
    rw [fanOutLoop, if_pos (hok k), ih (k + 1)]
    simp [fanDeliveriesFrom, List.append_assoc]

/-- When the `n`-th `CreateDelivery` (counting from loop index `k`) is the
first to fail, the loop stops with a 500 after having appended the first
`n` deliveries. -/
theorem fanOutLoop_first_failure (createOk : Nat → Bool) (idSupply : Nat → Nat)
    (msgId now : Nat) :
    ∀ (eps : List Endpoint) (n k : Nat) (st : Store),
      (∀ j, j < n → createOk (k + j) = true) →
      createOk (k + n) = false →
      n < eps.length →
      fanOutLoop createOk idSupply msgId now k eps st =
        ({ st with deliveries := st.deliveries ++
              fanDeliveriesFrom idSupply msgId now k (eps.take n) },
          SendResponse.serverError) := by
  intro eps
  induction eps with
  | nil => intro n k st _ _ hlen; simp at hlen
  | cons ep rest ih =>
    intro n k st hok hfail hlen
    cases n with
    | zero =>
      rw [fanOutLoop, if_neg (by simpa using hfail)]
      simp [fanDeliveriesFrom]
    | succ m =>
      rw [fanOutLoop, if_pos (by simpa using hok 0 (Nat.succ_pos m))]
      rw [ih m (k + 1) _
        (fun j hj => by
          have h2 := hok (j + 1) (Nat.succ_lt_succ hj)
          rwa [show k + (j + 1) = k + 1 + j by omega] at h2)
        (by rwa [show k + 1 + m = k + (m + 1) by omega])
        (by simpa using hlen)]
      simp [fanDeliveriesFrom, List.append_assoc]

/-- The endpoint ids of the created deliveries are exactly the ids of the
endpoints, in order. -/
theorem fanDeliveriesFrom_map_endpointId (idSupply : Nat → Nat) (msgId now : Nat) :
    ∀ (eps : List Endpoint) (k : Nat),
      (fanDeliveriesFrom idSupply msgId now k eps).map (fun d => d.endpointId) =
        eps.map (fun ep => ep.id) := by
  intro eps
  induction eps with
  | nil => intro k; rfl
  | cons ep rest ih => intro k; simp [fanDeliveriesFrom, mkDelivery, ih (k + 1)]

/-- Every delivery created by fan-out is pending with attempt count 0 and
no next-retry time, and references the ingested message. -/
theorem fanDeliveriesFrom_fields (idSupply : Nat → Nat) (msgId now : Nat) :
    ∀ (eps : List Endpoint) (k : Nat) (d : Delivery),
      d ∈ fanDeliveriesFrom idSupply msgId now k eps →
      d.status = .pending ∧ d.attemptCount = 0 ∧ d.nextRetryAt = none ∧ d.messageId = msgId := by
  intro eps
  induction eps with
  | nil => intro k d hd; cases hd
  | cons ep rest ih =>
    intro k d hd
    cases hd with
    | head => exact ⟨rfl, rfl, rfl, rfl⟩
    | tail _ h => exact ih (k + 1) d h

/-- Everything `GetPendingDeliveries` returns is in the sorted due list. -/
theorem getPending_subset_sorted {now : Nat} {limit : Int} {rows : List Delivery}
    {d : Delivery} (hd : d ∈ GetPendingDeliveries now limit rows) :
    d ∈ List.insertionSort createdLE (rows.filter (dueFilter now)) := by
  unfold GetPendingDeliveries at hd
  split at hd
  · exact hd
  · exact List.take_subset _ _ hd

/-- The minimal envelope adds exactly 28 bytes around the event type and
the payload. -/
theorem clientBody_length :
    ∀ (e p : GoStr), (clientBody e p).length = e.length + p.length + 28 := by
  intro e p
  simp [clientBody, toChars]
  omega

theorem fittingPayload_length : fittingPayload.length = 262115 := by
  unfold fittingPayload
  exact List.length_replicate _ _

theorem hugePayload_length : hugePayload.length = 262144 := by
  unfold hugePayload
  exact List.length_replicate _ _

/-! ## Claim theorems -/

/-- Claim C1: for every secret, payload and timestamp, `Verify` accepts
the signature produced by `Sign` at that timestamp; the signature equals
`"v1="` followed by the lowercase hex of
`HMAC-SHA256(secret, decimal(ts) ++ "." ++ payload)` (and, being a pure
function of `(secret, payload, ts)`, is byte-stable); and `Verify` with a
different secret rejects it whenever the two secrets' MACs over the
signed content differ (they are expected to differ for every distinct
pair of secrets, and are concretely shown to differ in the witness; equal
MACs under two secrets would be an HMAC collision). -/
theorem signer_sign_verify :
    ∀ (secret payload : List Nat) (ts : Nat),
      Verify secret payload ts (Sign secret payload ts) = true ∧
      Sign secret payload ts =
        v1Tag ++ hexEncode (hmacSha256 secret (decimalBytes ts ++ 46 :: payload)) ∧
      ∀ secret' : List Nat,
        hmacSha256 secret' (signedContent ts payload) ≠
          hmacSha256 secret (signedContent ts payload) →
        Verify secret' payload ts (Sign secret payload ts) = false := by
  intro secret payload ts
  refine ⟨?_, rfl, ?_⟩
  · simp [Verify, Sign]
  · intro secret' hne
    unfold Verify Sign
    rw [beq_eq_false_iff_ne]
    intro heq
    exact hne (hexEncode_injective _ _ (List.append_cancel_left heq))

set_option maxRecDepth 10000 in
/-- Claim C1, witness: the secrets `"k1"` and `"k2"` produce different
MACs over the signed content `"0."`, and verification of the `"k1"`
signature under `"k2"` fails. -/
theorem signer_sign_verify_witness :
    hmacSha256 [107, 50] (signedContent 0 []) ≠ hmacSha256 [107, 49] (signedContent 0 []) ∧
    Verify [107, 50] [] 0 (Sign [107, 49] [] 0) = false := by
  have hne : hmacSha256 [107, 50] (signedContent 0 []) ≠
      hmacSha256 [107, 49] (signedContent 0 []) := by decide
  exact ⟨hne, (signer_sign_verify [107, 49] [] 0).2.2 [107, 50] hne⟩

/-- Claim C2, counterexample: the claim says `match(["a.*"], "a")` is true
(a `prefix.*` subscription matching the bare `prefix`), but
`matchesEventType` only tests `strings.HasPrefix(eventType, prefix+".")`,
so it returns false. -/
theorem match_bare_prefix_counterexample :
    matchesEventType [toChars "a.*"] (toChars "a") = false := by decide

/-- Claim C2 as amended: the match returns true iff the subscription list
is empty or some rule fires, where `*` matches anything, `prefix.*`
matches exactly the event types starting with `prefix.` (NOT the bare
`prefix`), and any other subscription matches by string equality; and the
concrete cases `match(["a.*"], "a") = false` (amended),
`match(["a.*"], "a.b") = true`, `match(["a.*"], "ab") = false`,
`match(["a"], "a.b") = false`. -/
theorem match_rules_amended :
    (∀ subs e, matchesEventType subs e = true ↔
      (subs = [] ∨ ∃ sub ∈ subs, specRuleAmended sub e)) ∧
    matchesEventType [toChars "a.*"] (toChars "a") = false ∧
    matchesEventType [toChars "a.*"] (toChars "a.b") = true ∧
    matchesEventType [toChars "a.*"] (toChars "ab") = false ∧
    matchesEventType [toChars "a"] (toChars "a.b") = false := by
  refine ⟨fun subs e => ?_, by decide, by decide, by decide, by decide⟩
  unfold matchesEventType
  by_cases h : subs.length = 0
  · simp [h, List.length_eq_zero.mp h]
  · rw [if_neg h, List.any_eq_true]
    constructor
    · rintro ⟨sub, hmem, hsub⟩
      refine Or.inr ⟨sub, hmem, ?_⟩
      simp only [Bool.or_eq_true, Bool.and_eq_true, beq_iff_eq] at hsub
      unfold specRuleAmended
      tauto
    · rintro (rfl | ⟨sub, hmem, hrule⟩)
      · simp at h
      · refine ⟨sub, hmem, ?_⟩
        simp only [Bool.or_eq_true, Bool.and_eq_true, beq_iff_eq]
        unfold specRuleAmended at hrule
        tauto

/-- Claim C3: an attempt is classified a success iff its error string is
empty and `200 ≤ statusCode < 300`; in that case the worker persists the
delivery as `success` with `next_retry_at` cleared; any other outcome is
a failure, under which the persisted delivery (when one is persisted at
all) is never `success`. -/
theorem attempt_success_classification :
    ∀ (r : SendOutcome),
      (attemptSuccess r = true ↔
        (r.error = [] ∧ 200 ≤ r.statusCode ∧ r.statusCode < 300)) ∧
      ∀ (maxAttempts : Int) (schedule : List Nat) (now : Nat) (d : Delivery),
        (attemptSuccess r = true →
          processStep maxAttempts schedule now d r =
            some { d with status := .success, attemptCount := d.attemptCount + 1,
                          nextRetryAt := none }) ∧
        (attemptSuccess r = false →
          ∀ d', processStep maxAttempts schedule now d r = some d' →
            d'.status ≠ .success) := by
  intro r
  constructor
  · simp [attemptSuccess, IsSuccess, Bool.and_eq_true, beq_iff_eq,
      decide_eq_true_eq, and_assoc]
  · intro maxA schedule now d
    constructor
    · intro h
      simp [processStep, h]
    · intro h d' hd'
      simp only [processStep, h, Bool.false_eq_true, if_false] at hd'
      split at hd'
      · injection hd' with he
        subst he
        simp
      · split at hd'
        · injection hd' with he
          subst he
          simp
        · cases hd'

/-- Claim C3, witness: an HTTP 204 with empty error is persisted as
`success`, and after an HTTP 503 the persisted row (here `retrying` with
next retry at `5 + 30`) is not `success`. -/
theorem attempt_success_classification_witness :
    processStep 8 [30] 5 exInit ⟨204, []⟩ =
      some { exInit with status := .success,
                         attemptCount := exInit.attemptCount + 1,
                         nextRetryAt := none } ∧
    ({ exInit with status := DeliveryStatus.retrying, attemptCount := 1,
                   nextRetryAt := some 35 } : Delivery).status ≠
      DeliveryStatus.success :=
  ⟨((attempt_success_classification ⟨204, []⟩).2 8 [30] 5 exInit).1 (by decide),
   ((attempt_success_classification ⟨503, []⟩).2 8 [30] 5 exInit).2 (by decide)
     { exInit with status := DeliveryStatus.retrying, attemptCount := 1,
                   nextRetryAt := some 35 } (by decide)⟩

/-- Claim C4: when an attempt fails with the new attempt count still
below `maxAttempts` but `attemptCount - 1 ≥ len(schedule)`, the claim
says the delivery is marked `failed`; the code instead sets status
`retrying` with a nil `NextRetryTime` (its comment: "no more retries")
and then dereferences that nil pointer in the log call, so `Process`
panics and persists nothing — evaluated here at `maxAttempts = 3`,
`schedule = []`, a pending delivery and an HTTP 500 (the model returns
`none`: no delivery update is written, and in particular the delivery is
never marked failed); with a non-exhausted schedule the same attempt is
persisted as `retrying`. -/
theorem schedule_exhausted_never_marks_failed :
    processStep 3 [] 0 (initialDelivery 0 0 0 0) ⟨500, []⟩ = none ∧
    NextRetryTime 0 1 [] = none ∧
    processStep 3 [30] 0 (initialDelivery 0 0 0 0) ⟨500, []⟩ =
      some { (initialDelivery 0 0 0 0) with
               status := DeliveryStatus.retrying,
               attemptCount := 1,
               nextRetryAt := some 30 } :=
  ⟨by decide, by decide, by decide⟩

/-- Claim C5, counterexample: with `maxAttempts = 1` a delivery that
fails, is manually retried (attempt count preserved) and fails again is
reachable in state `failed` with `attempt_count = 2 ≠ maxAttempts`. -/
theorem failed_attempt_count_counterexample :
    Reachable exCfg exInit exFailedTwice ∧
    exFailedTwice.status = .failed ∧
    exFailedTwice.attemptCount ≠ exCfg.maxAttempts := by
  refine ⟨?_, by decide, by decide⟩
  have s1 : Step exCfg exInit exFailedOnce :=
    Step.processed exInit ⟨500, []⟩ 0 exFailedOnce (Or.inl rfl) (by decide)
  have s2 : Step exCfg exFailedOnce exRetried :=
    Step.manualRetry exFailedOnce 5 rfl
  have s3 : Step exCfg exRetried exFailedTwice :=
    Step.processed exRetried ⟨500, []⟩ 7 exFailedTwice (Or.inr rfl) (by decide)
  exact Reachable.step (Reachable.step (Reachable.step Reachable.refl s1) s2) s3

/-- Claim C5 as amended: every delivery reachable through worker
processing and manual retry that is in state `failed` has a null
`next_retry_at` and an attempt count of AT LEAST the configured
`maxAttempts` (equality can be exceeded because manual retry preserves
the attempt count of an already-failed delivery). -/
theorem failed_delivery_invariant_amended :
    ∀ (cfg : RetryConfig) (i m e c : Nat) (d : Delivery),
      Reachable cfg (initialDelivery i m e c) d →
      d.status = .failed →
      d.nextRetryAt = none ∧ cfg.maxAttempts ≤ d.attemptCount := by
  intro cfg i m e c d h
  induction h with
  | refl => intro hst; simp [initialDelivery] at hst
  | step hreach hstep ih =>
    intro hst
    cases hstep with
    | processed r now d' hpick hs =>
      simp only [processStep] at hs
      split at hs
      · injection hs with he
        subst he
        simp at hst
      · split at hs
        · injection hs with he
          subst he
          rename_i hge
          exact ⟨rfl, by simpa using hge⟩
        · split at hs
          · injection hs with he
            subst he
            simp at hst
          · cases hs
    | manualRetry now hfailed =>
      simp at hst

/-- Claim C5, witness: the invariant applied to the concrete reachable
failed delivery `exFailedOnce` under `exCfg`. -/
theorem failed_delivery_invariant_amended_witness :
    Reachable exCfg exInit exFailedOnce ∧ exFailedOnce.status = .failed ∧
    (exFailedOnce.nextRetryAt = none ∧ exCfg.maxAttempts ≤ exFailedOnce.attemptCount) := by
  have hr : Reachable exCfg exInit exFailedOnce :=
    Reachable.step Reachable.refl
      (Step.processed exInit ⟨500, []⟩ 0 exFailedOnce (Or.inl rfl) (by decide))
  exact ⟨hr, rfl, failed_delivery_invariant_amended exCfg 1 1 1 0 exFailedOnce hr rfl⟩

/-- Claim C6: when every store write succeeds, ingest fan-out appends the
message and exactly one delivery per active endpoint of the owning
application whose subscriptions match the event type (their endpoint ids
are, in order, the matched endpoints' ids), each created `pending` with
attempt count 0 and null next-retry; the handler answers synchronously
with the count of created deliveries, and the attempts relation is
untouched (nothing is sent inline — the model contains no send at all). -/
theorem fanout_one_delivery_per_match :
    ∀ (createOk : Nat → Bool) (idSupply : Nat → Nat) (appId : Nat)
      (eventType payload : GoStr) (msgId now : Nat) (st : Store),
      (∀ j, createOk j = true) →
      sendFanOut true createOk idSupply appId eventType payload msgId now st =
        ({ st with
            messages := st.messages ++
              [{ id := msgId, appId := appId, eventType := eventType,
                 payload := payload, createdAt := now }],
            deliveries := st.deliveries ++
              fanDeliveriesFrom idSupply msgId now 0
                (GetEndpointsByEventType appId eventType st.endpoints) },
          SendResponse.accepted (GetEndpointsByEventType appId eventType st.endpoints).length) ∧
      (fanDeliveriesFrom idSupply msgId now 0
          (GetEndpointsByEventType appId eventType st.endpoints)).map (fun d => d.endpointId) =
        (GetEndpointsByEventType appId eventType st.endpoints).map (fun ep => ep.id) ∧
      ∀ d ∈ fanDeliveriesFrom idSupply msgId now 0
          (GetEndpointsByEventType appId eventType st.endpoints),
        d.status = .pending ∧ d.attemptCount = 0 ∧ d.nextRetryAt = none ∧
        d.messageId = msgId := by
  intro createOk idSupply appId eventType payload msgId now st hok
  refine ⟨?_, fanDeliveriesFrom_map_endpointId idSupply msgId now _ 0,
    fun d hd => fanDeliveriesFrom_fields idSupply msgId now _ 0 d hd⟩
  show fanOutLoop createOk idSupply msgId now 0 _ _ = _
  rw [fanOutLoop_all_ok createOk idSupply msgId now hok]

/-- Claim C6, witness: a store with one matching endpoint; ingest
persists the message, creates one pending delivery and answers with
count 1. -/
theorem fanout_one_delivery_per_match_witness :
    (GetEndpointsByEventType 1 (toChars "ev") stW.endpoints).length = 1 ∧
    sendFanOut true (fun _ => true) (fun k => k) 1 (toChars "ev") (toChars "p") 7 3 stW =
      ({ stW with
          messages := stW.messages ++
            [{ id := 7, appId := 1, eventType := toChars "ev",
               payload := toChars "p", createdAt := 3 }],
          deliveries := stW.deliveries ++
            fanDeliveriesFrom (fun k => k) 7 3 0
              (GetEndpointsByEventType 1 (toChars "ev") stW.endpoints) },
        SendResponse.accepted (GetEndpointsByEventType 1 (toChars "ev") stW.endpoints).length) :=
  ⟨by decide,
   (fanout_one_delivery_per_match (fun _ => true) (fun k => k) 1 (toChars "ev")
     (toChars "p") 7 3 stW (fun j => rfl)).1⟩

/-- Claim C7, counterexample: the claim quantifies over every limit, but
`LIMIT ?` bound to a negative Go int places no bound in SQLite, so with
`limit = -1` the query returns one due delivery — not "at most limit"
deliveries. -/
theorem getPending_negative_limit_counterexample :
    GetPendingDeliveries 0 (-1) [rowDue] = [rowDue] ∧
    ¬ (((GetPendingDeliveries 0 (-1) [rowDue]).length : Int) ≤ -1) :=
  ⟨by decide, by decide⟩

/-- Claim C7 as amended: for every NON-NEGATIVE limit the due-queue query
returns at most `limit` deliveries (a negative limit is passed to
SQLite's `LIMIT`, which then imposes no bound); each returned delivery is
pending or retrying with a null or due next-retry time; the result is
ordered by creation time ascending; and a due delivery is left out only
because the limit is full of deliveries created no later than it. -/
theorem getPending_due_queue_amended :
    ∀ (now : Nat) (limit : Int) (rows : List Delivery),
      (0 ≤ limit → ((GetPendingDeliveries now limit rows).length : Int) ≤ limit) ∧
      (∀ d ∈ GetPendingDeliveries now limit rows,
        (d.status = .pending ∨ d.status = .retrying) ∧
        (d.nextRetryAt = none ∨ ∃ t, d.nextRetryAt = some t ∧ t ≤ now)) ∧
      List.Sorted createdLE (GetPendingDeliveries now limit rows) ∧
      (∀ d ∈ rows, dueFilter now d = true →
        d ∉ GetPendingDeliveries now limit rows →
        0 ≤ limit ∧ (GetPendingDeliveries now limit rows).length = limit.toNat ∧
        ∀ e ∈ GetPendingDeliveries now limit rows, e.createdAt ≤ d.createdAt) := by
  intro now limit rows
  have hperm := List.perm_insertionSort createdLE (rows.filter (dueFilter now))
  have hsort := List.sorted_insertionSort createdLE (rows.filter (dueFilter now))
  refine ⟨?_, ?_, ?_, ?_⟩
  · intro hpos
    unfold GetPendingDeliveries
    rw [if_neg (by omega)]
    have h1 : (List.take limit.toNat
        (List.insertionSort createdLE (rows.filter (dueFilter now)))).length ≤ limit.toNat :=
      List.length_take_le _ _
    omega
  · intro d hd
    have hmem : d ∈ rows.filter (dueFilter now) :=
      hperm.mem_iff.mp (getPending_subset_sorted hd)
    have hdue : dueFilter now d = true := (List.mem_filter.mp hmem).2
    simp only [dueFilter, Bool.and_eq_true, Bool.or_eq_true, beq_iff_eq] at hdue
    refine ⟨hdue.1, ?_⟩
    cases hnr : d.nextRetryAt with
    | none => exact Or.inl rfl
    | some t =>
      refine Or.inr ⟨t, rfl, ?_⟩
      have h2 := hdue.2
      rw [hnr] at h2
      simpa using h2
  · unfold GetPendingDeliveries
    split
    · exact hsort
    · exact List.Pairwise.sublist (List.take_sublist _ _) hsort
  · intro d hd hdue hnot
    have hmemf : d ∈ rows.filter (dueFilter now) := List.mem_filter.mpr ⟨hd, hdue⟩
    have hmems : d ∈ List.insertionSort createdLE (rows.filter (dueFilter now)) :=
      hperm.mem_iff.mpr hmemf
    set sorted := List.insertionSort createdLE (rows.filter (dueFilter now)) with hs
    by_cases hneg : limit < 0
    · exfalso
      apply hnot
      unfold GetPendingDeliveries
      rw [if_pos hneg]
      exact hmems
    · have hres : GetPendingDeliveries now limit rows = sorted.take limit.toNat := by
        unfold GetPendingDeliveries
        rw [if_neg hneg]
      have hdrop : d ∈ sorted.drop limit.toNat := by
        have h3 := (List.take_append_drop limit.toNat sorted) ▸ hmems
        rcases List.mem_append.mp h3 with h | h
        · exact absurd (hres ▸ h) hnot
        · exact h
      have hlt : limit.toNat < sorted.length := by
        by_contra hcon
        rw [List.drop_eq_nil_iff.mpr (by omega)] at hdrop
        cases hdrop
      refine ⟨by omega, ?_, ?_⟩
      · rw [hres, List.length_take]
        omega
      · intro e he
        rw [hres] at he
        have hpw := hsort
        rw [← List.take_append_drop limit.toNat sorted] at hpw
        exact (List.pairwise_append.mp hpw).2.2 e he d hdrop

/-- Claim C7, witness: the amended bound applied at `limit = 2` on a
one-row store. -/
theorem getPending_due_queue_amended_witness :
    (0 : Int) ≤ 2 ∧ ((GetPendingDeliveries 0 2 [rowDue]).length : Int) ≤ 2 :=
  ⟨by decide, (getPending_due_queue_amended 0 2 [rowDue]).1 (by decide)⟩

/-- Claim C8, counterexample: a payload of exactly 262144 bytes is
rejected, where the claim says it is accepted. Its minimal request body
is a single 262173-byte JSON object whose `payload` member holds the
payload, so the decoder's leading complete JSON value is the whole body
and decoding must consume all 262173 bytes — past the 262144-byte
`MaxBytesReader` cap. The read fails, `Decode` errors, the ingest
answers 400 and nothing is persisted. -/
theorem payload_262144_rejected_counterexample :
    maxPayloadSize < (clientBody (toChars "a") hugePayload).length ∧
    handleSend
        (some (⟨toChars "a", hugePayload⟩, (clientBody (toChars "a") hugePayload).length))
        true (fun _ => true) (fun k => k) 1 5 3 emptyStore =
      (emptyStore, SendResponse.badRequest) := by
  have hbig : maxPayloadSize < (clientBody (toChars "a") hugePayload).length := by
    rw [clientBody_length, hugePayload_length]
    decide
  refine ⟨hbig, ?_⟩
  simp only [handleSend]
  rw [if_pos hbig]

/-- Claim C8 as amended: the 262144-byte cap bounds the bytes the JSON
decoder must consume for the request's single JSON value, not the payload
field and not the whole body. Whenever that value extends past the cap
the ingest is rejected with a 400 and no message is persisted (and a
malformed or truncated body is likewise a 400 with nothing persisted);
the minimal envelope adds 28 bytes around event type plus payload, so a
262144-byte payload's value can never fit; a request whose complete value
is exactly 262144 bytes (event type `"a"`, 262115-byte payload) is
accepted and its message persisted; and a short leading value is accepted
no matter how long the rest of the body is, since `Decode` never reads
past the first value. -/
theorem ingest_decode_cap_amended :
    (∀ (req : SendRequest) (valueEnd : Nat) (createMsgOk : Bool)
      (createOk : Nat → Bool) (idSupply : Nat → Nat) (appId msgId now : Nat) (st : Store),
      maxPayloadSize < valueEnd →
      handleSend (some (req, valueEnd)) createMsgOk createOk idSupply appId msgId now st =
        (st, SendResponse.badRequest)) ∧
    (∀ (createMsgOk : Bool) (createOk : Nat → Bool) (idSupply : Nat → Nat)
      (appId msgId now : Nat) (st : Store),
      handleSend none createMsgOk createOk idSupply appId msgId now st =
        (st, SendResponse.badRequest)) ∧
    (∀ (e p : GoStr), (clientBody e p).length = e.length + p.length + 28) ∧
    (clientBody (toChars "a") fittingPayload).length = maxPayloadSize ∧
    handleSend
        (some (⟨toChars "a", fittingPayload⟩, (clientBody (toChars "a") fittingPayload).length))
        true (fun _ => true) (fun k => k) 1 5 3 emptyStore =
      ({ emptyStore with
          messages := [{ id := 5, appId := 1, eventType := toChars "a",
                         payload := fittingPayload, createdAt := 3 }] },
        SendResponse.accepted 0) ∧
    handleSend (some (⟨toChars "a", toChars "1"⟩, 30))
        true (fun _ => true) (fun k => k) 1 5 3 emptyStore =
      ({ emptyStore with
          messages := [{ id := 5, appId := 1, eventType := toChars "a",
                         payload := toChars "1", createdAt := 3 }] },
        SendResponse.accepted 0) := by
  have hfit : (clientBody (toChars "a") fittingPayload).length = maxPayloadSize := by
    rw [clientBody_length, fittingPayload_length]
    decide
  refine ⟨?_, ?_, clientBody_length, hfit, ?_, ?_⟩
  · intro req valueEnd createMsgOk createOk idSupply appId msgId now st h
    simp only [handleSend]
    rw [if_pos h]
  · intro createMsgOk createOk idSupply appId msgId now st
    rfl
  · have h1 : ¬ (maxPayloadSize < (clientBody (toChars "a") fittingPayload).length) := by
      rw [hfit]
      decide
    have h2 : ¬ (fittingPayload.length = 0) := by
      rw [fittingPayload_length]
      decide
    simp only [handleSend, if_neg h1]
    rw [if_neg (by decide), if_neg h2]
    rfl
  · decide

/-- Claim C8, witness: a request whose single JSON value spans 262145
bytes (one byte past the cap) is rejected with the store unchanged, by
the amended gate. -/
theorem ingest_decode_cap_amended_witness :
    maxPayloadSize < 262145 ∧
    handleSend (some (⟨toChars "a", toChars "1"⟩, 262145)) true (fun _ => true)
        (fun k => k) 0 0 0 emptyStore =
      (emptyStore, SendResponse.badRequest) :=
  ⟨by decide,
   ingest_decode_cap_amended.1 ⟨toChars "a", toChars "1"⟩ 262145 true
     (fun _ => true) (fun k => k) 0 0 0 emptyStore (by decide)⟩

/-- Claim C9: if the k-th `CreateDelivery` of fan-out fails, the handler
reports a 500 to the caller, yet the message row and the deliveries
already created for the first k matched endpoints remain in the store —
fan-out runs in no transaction and rolls nothing back. -/
theorem fanout_partial_failure_not_rolled_back :
    ∀ (createOk : Nat → Bool) (idSupply : Nat → Nat) (appId : Nat)
      (eventType payload : GoStr) (msgId now : Nat) (st : Store) (k : Nat),
      (∀ j, j < k → createOk j = true) →
      createOk k = false →
      k < (GetEndpointsByEventType appId eventType st.endpoints).length →
      sendFanOut true createOk idSupply appId eventType payload msgId now st =
        ({ st with
            messages := st.messages ++
              [{ id := msgId, appId := appId, eventType := eventType,
                 payload := payload, createdAt := now }],
            deliveries := st.deliveries ++
              fanDeliveriesFrom idSupply msgId now 0
                ((GetEndpointsByEventType appId eventType st.endpoints).take k) },
          SendResponse.serverError) := by
  intro createOk idSupply appId eventType payload msgId now st k hok hfail hlen
  show fanOutLoop createOk idSupply msgId now 0 _ _ = _
  rw [fanOutLoop_first_failure createOk idSupply msgId now _ k 0 _
    (fun j hj => by rw [Nat.zero_add]; exact hok j hj)
    (by rwa [Nat.zero_add]) hlen]

/-- Claim C9, witness: two matching endpoints, the second
`CreateDelivery` fails: the caller gets a 500, the message and the first
delivery stay persisted. -/
theorem fanout_partial_failure_witness :
    (GetEndpointsByEventType 1 (toChars "ev") stW2.endpoints).length = 2 ∧
    sendFanOut true (fun j => j == 0) (fun k => k) 1 (toChars "ev") (toChars "p") 7 3 stW2 =
      ({ stW2 with
          messages := stW2.messages ++
            [{ id := 7, appId := 1, eventType := toChars "ev",
               payload := toChars "p", createdAt := 3 }],
          deliveries := stW2.deliveries ++
            fanDeliveriesFrom (fun k => k) 7 3 0
              ((GetEndpointsByEventType 1 (toChars "ev") stW2.endpoints).take 1) },
        SendResponse.serverError) :=
  ⟨by decide,
   fanout_partial_failure_not_rolled_back (fun j => j == 0) (fun k => k) 1
     (toChars "ev") (toChars "p") 7 3 stW2 1 (by decide) (by decide) (by decide)⟩

/-- Claim C10: every endpoint built by the create handler is active, its
secret is the server-generated `NewSecret draw` — `"whsec_"` followed by
exactly 40 characters of the alphanumeric charset — and a nil
event-type list is stored as the empty list (the decoded request type has
no secret and no active field, mirroring the Go `createEndpointRequest`
struct, so a client-supplied secret or active value is ignored by
construction: the theorem holds for every request). -/
theorem create_endpoint_server_secret :
    ∀ (req : CreateEndpointRequest) (appId newId : Nat) (draw : Nat → Fin 62) (now : Nat),
      (createEndpoint req appId newId draw now).active = true ∧
      (createEndpoint req appId newId draw now).secret = NewSecret draw ∧
      (∃ suffix : GoStr,
        (createEndpoint req appId newId draw now).secret = toChars "whsec_" ++ suffix ∧
        suffix.length = 40 ∧ ∀ c ∈ suffix, c ∈ secretCharset) ∧
      (req.eventTypes = none → (createEndpoint req appId newId draw now).eventTypes = []) ∧
      (∀ l, req.eventTypes = some l → (createEndpoint req appId newId draw now).eventTypes = l) := by
  intro req appId newId draw now
  refine ⟨rfl, rfl, ?_, ?_, ?_⟩
  · refine ⟨(List.range 40).map fun i =>
      secretCharset.get ⟨(draw i).val, Nat.lt_of_lt_of_le (draw i).isLt (by decide)⟩,
      rfl, by simp, ?_⟩
    intro c hc
    simp only [List.mem_map] at hc
    obtain ⟨i, _, rfl⟩ := hc
    exact List.get_mem _ _ _
  · intro h
    simp [createEndpoint, h]
  · intro l h
    simp [createEndpoint, h]

/-- Claim C10, witness: a concrete request with a nil event-type list
produces an active endpoint with the empty list. -/
theorem create_endpoint_server_secret_witness :
    (createEndpoint ⟨toChars "https://a.example/h", [], none, 0⟩ 1 2
        (fun _ => ⟨0, by decide⟩) 3).active = true ∧
    (createEndpoint ⟨toChars "https://a.example/h", [], none, 0⟩ 1 2
        (fun _ => ⟨0, by decide⟩) 3).eventTypes = [] :=
  ⟨(create_endpoint_server_secret ⟨toChars "https://a.example/h", [], none, 0⟩ 1 2
      (fun _ => ⟨0, by decide⟩) 3).1,
   (create_endpoint_server_secret ⟨toChars "https://a.example/h", [], none, 0⟩ 1 2
      (fun _ => ⟨0, by decide⟩) 3).2.2.2.1 rfl⟩

end PipeRelay
